import Mathlib

/-!
Shallow embedding of the asynchronous message-processing core of the
repository: the `MessageBroker` class of `src/lib/messageBroker.ts` and the
`IdempotencyManager` class of `src/lib/encryption.ts` (lines 330-760).

Modelling conventions:
* JavaScript numbers holding integer quantities (timestamps in ms, retry
  counts, configuration values) are modelled as `Int`; timestamps (`Date`)
  are milliseconds since the epoch.  `new Date()` calls inside the TS
  methods become an explicit `now : Int` parameter.
* `Map<string, IdempotencyRecord>` becomes an association list with
  `get`/`set`/`delete` mirroring the Map operations.
* Async methods have no internal await interleavings that matter for the
  claims (each method body runs its store mutations synchronously), so they
  are modelled as pure state-passing functions.
* The dynamic `metadata: Record<string, any>` is modelled by the fields the
  core itself reads or writes (`retryCount`, `lastError`); caller-supplied
  extra fields are never inspected by the code under verification.
* `setTimeout` callbacks created by `handleFailedMessage` are modelled as a
  list of pending timers in the broker system state; firing a timer runs the
  callback body exactly as written in the source (an `unshift` of the
  retried message, nothing else).
-/

/-! ## Idempotency ledger data model (`encryption.ts` lines 334-364) -/

/-- `status: 'pending' | 'completed' | 'failed'`. -/
inductive IdemStatus where
  | pending
  | completed
  | failed
deriving DecidableEq

/-- The fields of the dynamic `metadata` record that the manager itself reads
or writes (`metadata?.retryCount`, `lastError`). -/
structure Meta where
  retryCount : Option Int := none
  lastError : Option String := none
deriving DecidableEq

/-- The value stored in `record.result`: either the action value stored by
`markCompleted`, or the `{ error, timestamp }` object stored by
`markFailed` (the ISO timestamp string is modelled by the instant itself). -/
inductive RVal (α : Type) where
  | val (v : α)
  | errObj (error : String) (timestamp : Int)
deriving DecidableEq

/-- `IdempotencyRecord` (encryption.ts lines 334-344). -/
structure IdempotencyRecord (α : Type) where
  actionId : String
  customerId : String
  actionType : String
  status : IdemStatus
  result : Option (RVal α) := none
  createdAt : Int
  completedAt : Option Int := none
  expiresAt : Int
  metadata : Option Meta := none
deriving DecidableEq

/-- `IdempotencyConfig` (encryption.ts lines 346-350). -/
structure IdempotencyConfig where
  ttlMs : Int
  maxRetries : Int
  cleanupIntervalMs : Int
deriving DecidableEq

/-- The `Map<string, IdempotencyRecord>` backing store. -/
def IdemStore (α : Type) : Type := List (String × IdempotencyRecord α)

instance (α : Type) [DecidableEq α] : DecidableEq (IdemStore α) :=
  inferInstanceAs (DecidableEq (List (String × IdempotencyRecord α)))

/-- `Map.prototype.get`. -/
def IdemStore.get {α : Type} : IdemStore α → String → Option (IdempotencyRecord α)
  | [], _ => none
  | (k', r') :: rest, k => if k' = k then some r' else IdemStore.get rest k

/-- `Map.prototype.set` (replaces the entry if the key is present, otherwise
appends). -/
def IdemStore.set {α : Type} : IdemStore α → String → IdempotencyRecord α → IdemStore α
  | [], k, r => [(k, r)]
  | (k', r') :: rest, k, r =>
      if k' = k then (k, r) :: rest else (k', r') :: IdemStore.set rest k r

/-- `Map.prototype.delete` (keys are unique in a Map, so removing every
binding of the key is the same operation). -/
def IdemStore.delete {α : Type} : IdemStore α → String → IdemStore α
  | [], _ => []
  | (k', r') :: rest, k =>
      if k' = k then IdemStore.delete rest k else (k', r') :: IdemStore.delete rest k

/-- The `IdempotencyManager` instance state: its private `store` Map and its
`config`.  The `cleanupTimer` handle has no effect on any operation modelled
here and is omitted. -/
structure IdempotencyManager (α : Type) where
  store : IdemStore α
  config : IdempotencyConfig

instance (α : Type) [DecidableEq α] : DecidableEq (IdempotencyManager α) := by
  intro a b
  cases a
  cases b
  simp only [IdempotencyManager.mk.injEq]
  exact instDecidableAnd

namespace IdempotencyManager

/-- The constructor (encryption.ts lines 357-364): stores the supplied config
verbatim and starts the cleanup interval timer.  It performs no validation of
the configuration values. -/
def new (α : Type) (config : IdempotencyConfig) : IdempotencyManager α :=
  { store := [], config := config }

/-- `generateKey(actionId, customerId)` (encryption.ts lines 724-726):
returns the template string `customerId:actionId`. -/
def generateKey (actionId customerId : String) : String :=
  customerId ++ ":" ++ actionId

/-- The result object of `checkIdempotency`. -/
structure CheckResult (α : Type) where
  canProceed : Bool
  existingRecord : Option (IdempotencyRecord α) := none
  reason : Option String := none
deriving DecidableEq

/-- `checkIdempotency(actionId, customerId, actionType)` (encryption.ts lines
369-432).  Returns the result object together with the store after the
expired-record deletion side effect.  The `actionType` argument is unused by
the source body, as here. -/
def checkIdempotency {α : Type} (mgr : IdempotencyManager α) (now : Int)
    (actionId customerId _actionType : String) :
    CheckResult α × IdempotencyManager α :=
  let key := generateKey actionId customerId
  match mgr.store.get key with
  | none => ({ canProceed := true }, mgr)
  | some existingRecord =>
    if now > existingRecord.expiresAt then
      ({ canProceed := true }, { mgr with store := mgr.store.delete key })
    else
      match existingRecord.status with
      | .pending =>
          ({ canProceed := false, existingRecord := some existingRecord,
             reason := some "Action is still in progress" }, mgr)
      | .completed =>
          ({ canProceed := false, existingRecord := some existingRecord,
             reason := some "Action already completed" }, mgr)
      | .failed =>
          let retryCount := (existingRecord.metadata.bind Meta.retryCount).getD 0
          if retryCount ≥ mgr.config.maxRetries then
            ({ canProceed := false, existingRecord := some existingRecord,
               reason := some "Max retries exceeded" }, mgr)
          else
            ({ canProceed := true, existingRecord := some existingRecord }, mgr)

/-- `storeAction(actionId, customerId, actionType, metadata?)` (encryption.ts
lines 437-460): creates a fresh `pending` record (metadata is the
caller-supplied value, replacing whatever the previous record held) and
`set`s it, returning the record and the updated manager. -/
def storeAction {α : Type} (mgr : IdempotencyManager α) (now : Int)
    (actionId customerId actionType : String) (metadata : Option Meta) :
    IdempotencyRecord α × IdempotencyManager α :=
  let key := generateKey actionId customerId
  let record : IdempotencyRecord α :=
    { actionId := actionId, customerId := customerId, actionType := actionType,
      status := .pending, createdAt := now,
      expiresAt := now + mgr.config.ttlMs, metadata := metadata }
  (record, { mgr with store := mgr.store.set key record })

/-- `markCompleted(actionId, customerId, result, metadata?)` (encryption.ts
lines 465-491). -/
def markCompleted {α : Type} (mgr : IdempotencyManager α) (now : Int)
    (actionId customerId : String) (result : α) (metadata : Option Meta) :
    Bool × IdempotencyManager α :=
  let key := generateKey actionId customerId
  match mgr.store.get key with
  | none => (false, mgr)
  | some record =>
    let record' :=
      { record with status := .completed, result := some (.val result),
                    completedAt := some now,
                    metadata := match metadata with
                               | none => record.metadata
                               | some m => some m }
    (true, { mgr with store := mgr.store.set key record' })

/-- `markFailed(actionId, customerId, error, metadata?)` (encryption.ts lines
496-526): computes `retryCount = (record.metadata?.retryCount || 0) + 1` and
overwrites metadata with the merge whose `retryCount` and `lastError` fields
are the freshly computed values (the explicit fields win the spread). -/
def markFailed {α : Type} (mgr : IdempotencyManager α) (now : Int)
    (actionId customerId : String) (error : String) (_metadata : Option Meta) :
    Bool × IdempotencyManager α :=
  let key := generateKey actionId customerId
  match mgr.store.get key with
  | none => (false, mgr)
  | some record =>
    let retryCount := (record.metadata.bind Meta.retryCount).getD 0 + 1
    let record' :=
      { record with status := .failed,
                    result := some (.errObj error now),
                    completedAt := some now,
                    metadata := some { retryCount := some retryCount,
                                       lastError := some error } }
    (true, { mgr with store := mgr.store.set key record' })

/-- The result object of `executeWithIdempotency`. -/
structure ExecOutcome (α : Type) where
  success : Bool
  result : Option (RVal α) := none
  fromCache : Bool
  error : Option String := none
deriving DecidableEq

/-- `executeWithIdempotency(actionId, customerId, actionType, actionFunction,
metadata?)` (encryption.ts lines 651-719).  The action capability is a pure
outcome `Except String α` (`.ok v` for a resolving promise, `.error msg` for
a rejection whose message is `msg`).  The returned `Bool` records whether the
action function was invoked during this call.  The outer try/catch of the
source only guards against exceptions thrown by the manager's own methods,
which are total here. -/
def executeWithIdempotency {α : Type} (mgr : IdempotencyManager α) (now : Int)
    (actionId customerId actionType : String) (action : Except String α)
    (metadata : Option Meta) :
    ExecOutcome α × IdempotencyManager α × Bool :=
  let chk := checkIdempotency mgr now actionId customerId actionType
  match chk.1.canProceed, chk.1.existingRecord with
  | false, some existingRecord =>
    if existingRecord.status = .completed then
      ({ success := true, result := existingRecord.result, fromCache := true },
       chk.2, false)
    else
      ({ success := false, fromCache := false,
         error := some (chk.1.reason.getD "Cannot proceed with action") },
       chk.2, false)
  | false, none =>
      ({ success := false, fromCache := false,
         error := some (chk.1.reason.getD "Cannot proceed with action") },
       chk.2, false)
  | true, _ =>
    let mgr₂ := (storeAction chk.2 now actionId customerId actionType metadata).2
    match action with
    | .ok v =>
        let mgr₃ := (markCompleted mgr₂ now actionId customerId v none).2
        ({ success := true, result := some (.val v), fromCache := false },
         mgr₃, true)
    | .error e =>
        let mgr₃ := (markFailed mgr₂ now actionId customerId e none).2
        ({ success := false, fromCache := false, error := some e }, mgr₃, true)

end IdempotencyManager

/-! ## Message broker data model (`messageBroker.ts`) -/

/-- `channel: 'whatsapp' | 'telegram' | 'email' | 'web'`. -/
inductive Channel where
  | whatsapp
  | telegram
  | email
  | web
deriving DecidableEq

/-- `Message` (messageBroker.ts lines 6-13).  The opaque `metadata` record is
never read by the broker and is omitted. -/
structure Message where
  id : String
  channel : Channel
  content : String
  timestamp : Int
  retryCount : Option Int := none
deriving DecidableEq

/-- `MessageBrokerConfig` (messageBroker.ts lines 15-19). -/
structure MessageBrokerConfig where
  maxRetries : Int
  retryDelay : Int
  deadLetterQueueSize : Int
deriving DecidableEq

/-- The broker system state: the class fields `messageQueue`,
`deadLetterQueue`, `processing`, `config`, plus `pendingTimers`, the retry
callbacks registered with `setTimeout` in `handleFailedMessage` and not yet
fired (each holds its computed delay and the retried message its closure
captured). -/
structure BrokerState where
  messageQueue : List Message := []
  deadLetterQueue : List Message := []
  processing : Bool := false
  pendingTimers : List (Int × Message) := []
  config : MessageBrokerConfig
deriving DecidableEq

namespace MessageBroker

/-- The constructor (messageBroker.ts lines 27-33): assigns the supplied
config verbatim.  It performs no validation of the configuration values. -/
def new (config : MessageBrokerConfig) : BrokerState :=
  { config := config }

/-- `moveToDeadLetterQueue(message)` (messageBroker.ts lines 115-123): if the
dead-letter queue length has reached `deadLetterQueueSize`, `shift()` the
oldest entry; then `push` the new message. -/
def moveToDeadLetterQueue (st : BrokerState) (message : Message) : BrokerState :=
  let dlq :=
    if (st.deadLetterQueue.length : Int) ≥ st.config.deadLetterQueueSize then
      st.deadLetterQueue.drop 1
    else
      st.deadLetterQueue
  { st with deadLetterQueue := dlq ++ [message] }

/-- `handleFailedMessage(message)` (messageBroker.ts lines 94-110): compute
`retryCount = (message.retryCount || 0) + 1`; if it is within `maxRetries`,
register a `setTimeout` callback for `retryDelay * 2^(retryCount-1)` ms that
will unshift the message with the bumped count; otherwise move the message to
the dead-letter queue. -/
def handleFailedMessage (st : BrokerState) (message : Message) : BrokerState :=
  let retryCount := message.retryCount.getD 0 + 1
  if retryCount ≤ st.config.maxRetries then
    let delay := st.config.retryDelay * 2 ^ (retryCount - 1).toNat
    { st with pendingTimers :=
        st.pendingTimers ++ [(delay, { message with retryCount := some retryCount })] }
  else
    moveToDeadLetterQueue st message

/-- Firing the `i`-th pending `setTimeout` callback (messageBroker.ts lines
101-105): its body unshifts the retried message onto the head of
`messageQueue` and logs.  Note the callback does not touch `processing` and
does not call `processQueue`. -/
def fireRetryTimer (st : BrokerState) (i : Nat) : BrokerState :=
  match st.pendingTimers.get? i with
  | none => st
  | some (_, message) =>
      { st with messageQueue := message :: st.messageQueue,
                pendingTimers := st.pendingTimers.eraseIdx i }

/-- `publishMessage(message)` (messageBroker.ts lines 38-55): push the
message (fresh id, current timestamp, `retryCount: 0`) on the queue tail and,
if the dispatcher is idle, start `processQueue` (whose first action sets
`processing = true`).  The fresh id comes from `generateMessageId`
(`Date.now()` plus randomness) and is supplied here by the environment. -/
def publishMessage (st : BrokerState) (id : String) (channel : Channel)
    (content : String) (now : Int) : BrokerState :=
  let message : Message :=
    { id := id, channel := channel, content := content,
      timestamp := now, retryCount := some 0 }
  let st' := { st with messageQueue := st.messageQueue ++ [message] }
  if st'.processing then st' else { st' with processing := true }

/-- One iteration of the `processQueue` loop (messageBroker.ts lines 60-77),
taken with the dispatcher running: if the queue is empty the loop exits and
clears `processing`; otherwise it shifts the head and invokes the handler
(`processMessage`), whose outcome is the environment-supplied `handlerOk`; on
failure the catch block runs `handleFailedMessage`. -/
def processQueueStep (st : BrokerState) (handlerOk : Bool) : BrokerState :=
  match st.messageQueue with
  | [] => { st with processing := false }
  | message :: rest =>
      let st' := { st with messageQueue := rest }
      if handlerOk then st' else handleFailedMessage st' message

/-- Removes the first message with the given id from a list, returning it and
the remainder: the `findIndex` + `splice(index, 1)` combination of
`retryDeadLetterMessage`. -/
def extractById : List Message → String → Option (Message × List Message)
  | [], _ => none
  | m :: rest, id =>
      if m.id = id then some (m, rest)
      else (extractById rest id).map (fun p => (p.1, m :: p.2))

/-- `retryDeadLetterMessage(messageId)` (messageBroker.ts lines 150-164):
locate the entry by id (returning `false` when absent), splice it out, reset
its `retryCount` to 0, push it on the queue tail, and start `processQueue`
if the dispatcher is idle. -/
def retryDeadLetterMessage (st : BrokerState) (messageId : String) :
    Bool × BrokerState :=
  match extractById st.deadLetterQueue messageId with
  | none => (false, st)
  | some (message, rest) =>
      let st' := { st with deadLetterQueue := rest,
                           messageQueue :=
                             st.messageQueue ++ [{ message with retryCount := some 0 }] }
      (true, if st'.processing then st' else { st' with processing := true })

/-- The trace of a broker whose handler fails on every attempt and in which
every scheduled retry timer fires and the resulting queue entry is dispatched
(the schedule under which the spec counts handler attempts).  Each recursive
step either dispatches the queue head with a failing handler (counting one
handler attempt) or, with an empty queue, fires the oldest pending retry
timer; it stops when both the queue and the timer list are exhausted.
Returns the final state and the number of handler attempts made. -/
def runAlwaysFail (st : BrokerState) : Nat → BrokerState × Nat
  | 0 => (st, 0)
  | fuel + 1 =>
    match st.messageQueue with
    | message :: rest =>
        let st' := handleFailedMessage { st with messageQueue := rest } message
        let out := runAlwaysFail st' fuel
        (out.1, out.2 + 1)
    | [] =>
      match st.pendingTimers with
      | [] => (st, 0)
      | _ :: _ => runAlwaysFail (fireRetryTimer st 0) fuel

end MessageBroker

/-- The record left for a key by a failing `executeWithIdempotency` cycle at
time `t` when the caller supplies no metadata: `storeAction` replaced the
metadata with `none` and `markFailed` then recomputed `retryCount` as
`(none.retryCount || 0) + 1 = 1`. -/
def failedRecord (α : Type) (actionId customerId actionType e : String)
    (cfg : IdempotencyConfig) (t : Int) : IdempotencyRecord α :=
  { actionId := actionId, customerId := customerId, actionType := actionType,
    status := .failed, result := some (.errObj e t), createdAt := t,
    completedAt := some t, expiresAt := t + cfg.ttlMs,
    metadata := some { retryCount := some 1, lastError := some e } }

/-- Repeated `executeWithIdempotency` calls for one key whose action always
rejects with message `e` and whose callers supply no metadata; one call per
instant in the list.  Returns the final manager and, per call, the outcome
object together with whether the action function was invoked. -/
def repeatFailingExec {α : Type} (mgr : IdempotencyManager α)
    (actionId customerId actionType e : String) :
    List Int → IdempotencyManager α × List (IdempotencyManager.ExecOutcome α × Bool)
  | [] => (mgr, [])
  | now :: rest =>
      let x := IdempotencyManager.executeWithIdempotency mgr now actionId
        customerId actionType (Except.error e) none
      let y := repeatFailingExec x.2.1 actionId customerId actionType e rest
      (y.1, (x.1, x.2.2) :: y.2)

/-! ## Concrete sample instances (used to instantiate the theorems) -/

/-- The default `IdempotencyConfig` of the source (24 h TTL, 3 retries,
hourly cleanup). -/
def sampleIdemConfig : IdempotencyConfig :=
  { ttlMs := 86400000, maxRetries := 3, cleanupIntervalMs := 3600000 }

/-- A pending record for key `c1:a1`. -/
def samplePendingRecord : IdempotencyRecord Nat :=
  { actionId := "a1", customerId := "c1", actionType := "t",
    status := .pending, createdAt := 0, expiresAt := 100 }

/-- A completed record for key `c1:a1` caching the value 42. -/
def sampleCompletedRecord : IdempotencyRecord Nat :=
  { actionId := "a1", customerId := "c1", actionType := "t",
    status := .completed, result := some (.val 42), createdAt := 0,
    completedAt := some 1, expiresAt := 100 }

/-- A failed record for key `c1:a1` with three recorded retries. -/
def sampleFailedRecord : IdempotencyRecord Nat :=
  { actionId := "a1", customerId := "c1", actionType := "t",
    status := .failed, result := some (.errObj "boom" 1), createdAt := 0,
    completedAt := some 1, expiresAt := 100,
    metadata := some { retryCount := some 3, lastError := some "boom" } }

/-- The default `MessageBrokerConfig` of the source. -/
def sampleBrokerConfig : MessageBrokerConfig :=
  { maxRetries := 3, retryDelay := 1000, deadLetterQueueSize := 1000 }

/-- A freshly published message. -/
def sampleMessage : Message :=
  { id := "m1", channel := .web, content := "hello", timestamp := 0,
    retryCount := some 0 }

/-! ## Helper lemmas -/

namespace IdemStore

theorem get_set_self {α : Type} (s : IdemStore α) (k : String) (r : IdempotencyRecord α) :
    (s.set k r).get k = some r := by
  induction s with
  | nil => simp [IdemStore.set, IdemStore.get]
  | cons hd tl ih =>
      by_cases h : hd.1 = k
      · simp [IdemStore.set, IdemStore.get, h]
      · simpa [IdemStore.set, IdemStore.get, h] using ih

theorem set_set {α : Type} (s : IdemStore α) (k : String) (a b : IdempotencyRecord α) :
    (s.set k a).set k b = s.set k b := by
  induction s with
  | nil => simp [IdemStore.set]
  | cons hd tl ih =>
      by_cases h : hd.1 = k
      · simp [IdemStore.set, h]
      · simp [IdemStore.set, h, ih]

end IdemStore

namespace IdempotencyManager

theorem check_absent {α : Type} (mgr : IdempotencyManager α) (now : Int)
    (aId cId ty : String) (h : mgr.store.get (generateKey aId cId) = none) :
    checkIdempotency mgr now aId cId ty = ({ canProceed := true }, mgr) := by
  simp [checkIdempotency, h]

theorem check_expired {α : Type} (mgr : IdempotencyManager α) (now : Int)
    (aId cId ty : String) (r : IdempotencyRecord α)
    (h : mgr.store.get (generateKey aId cId) = some r) (hx : now > r.expiresAt) :
    checkIdempotency mgr now aId cId ty =
      ({ canProceed := true },
       { mgr with store := mgr.store.delete (generateKey aId cId) }) := by
  simp [checkIdempotency, h, hx]

theorem check_pending {α : Type} (mgr : IdempotencyManager α) (now : Int)
    (aId cId ty : String) (r : IdempotencyRecord α)
    (h : mgr.store.get (generateKey aId cId) = some r) (hx : ¬ now > r.expiresAt)
    (hs : r.status = .pending) :
    checkIdempotency mgr now aId cId ty =
      ({ canProceed := false, existingRecord := some r,
         reason := some "Action is still in progress" }, mgr) := by
  simp [checkIdempotency, h, hx, hs]

theorem check_completed {α : Type} (mgr : IdempotencyManager α) (now : Int)
    (aId cId ty : String) (r : IdempotencyRecord α)
    (h : mgr.store.get (generateKey aId cId) = some r) (hx : ¬ now > r.expiresAt)
    (hs : r.status = .completed) :
    checkIdempotency mgr now aId cId ty =
      ({ canProceed := false, existingRecord := some r,
         reason := some "Action already completed" }, mgr) := by
  simp [checkIdempotency, h, hx, hs]

theorem check_failed_exhausted {α : Type} (mgr : IdempotencyManager α) (now : Int)
    (aId cId ty : String) (r : IdempotencyRecord α)
    (h : mgr.store.get (generateKey aId cId) = some r) (hx : ¬ now > r.expiresAt)
    (hs : r.status = .failed)
    (hr : (r.metadata.bind Meta.retryCount).getD 0 ≥ mgr.config.maxRetries) :
    checkIdempotency mgr now aId cId ty =
      ({ canProceed := false, existingRecord := some r,
         reason := some "Max retries exceeded" }, mgr) := by
  simp [checkIdempotency, h, hx, hs, hr]

theorem check_failed_budget {α : Type} (mgr : IdempotencyManager α) (now : Int)
    (aId cId ty : String) (r : IdempotencyRecord α)
    (h : mgr.store.get (generateKey aId cId) = some r) (hx : ¬ now > r.expiresAt)
    (hs : r.status = .failed)
    (hr : ¬ (r.metadata.bind Meta.retryCount).getD 0 ≥ mgr.config.maxRetries) :
    checkIdempotency mgr now aId cId ty =
      ({ canProceed := true, existingRecord := some r }, mgr) := by
  simp [checkIdempotency, h, hx, hs, hr]

end IdempotencyManager

/-! ## Claim theorems -/

open IdempotencyManager in
/-- Claim C2: for every key, `checkIdempotency` returns `canProceed = true`
when no record exists or the existing record's `expiresAt` is in the past
(deleting the expired record as a side effect); returns `canProceed = false`
with an in-progress reason when the record is pending; returns
`canProceed = false` with an already-completed reason and the existing record
(exposing the cached result) when the record is completed; and when the
record is failed, returns `canProceed = false` with reason
"Max retries exceeded" if its `retryCount` is at least the configured
`maxRetries`, else `canProceed = true`. -/
theorem checkIdempotency_case_analysis {α : Type} (mgr : IdempotencyManager α)
    (now : Int) (aId cId ty : String) :
    (mgr.store.get (generateKey aId cId) = none →
      checkIdempotency mgr now aId cId ty = ({ canProceed := true }, mgr)) ∧
    (∀ r, mgr.store.get (generateKey aId cId) = some r → now > r.expiresAt →
      checkIdempotency mgr now aId cId ty =
        ({ canProceed := true },
         { mgr with store := mgr.store.delete (generateKey aId cId) })) ∧
    (∀ r, mgr.store.get (generateKey aId cId) = some r → ¬ now > r.expiresAt →
      r.status = .pending →
      checkIdempotency mgr now aId cId ty =
        ({ canProceed := false, existingRecord := some r,
           reason := some "Action is still in progress" }, mgr)) ∧
    (∀ r, mgr.store.get (generateKey aId cId) = some r → ¬ now > r.expiresAt →
      r.status = .completed →
      checkIdempotency mgr now aId cId ty =
        ({ canProceed := false, existingRecord := some r,
           reason := some "Action already completed" }, mgr)) ∧
    (∀ r, mgr.store.get (generateKey aId cId) = some r → ¬ now > r.expiresAt →
      r.status = .failed →
      ((r.metadata.bind Meta.retryCount).getD 0 ≥ mgr.config.maxRetries →
        checkIdempotency mgr now aId cId ty =
          ({ canProceed := false, existingRecord := some r,
             reason := some "Max retries exceeded" }, mgr)) ∧
      ((r.metadata.bind Meta.retryCount).getD 0 < mgr.config.maxRetries →
        checkIdempotency mgr now aId cId ty =
          ({ canProceed := true, existingRecord := some r }, mgr))) := by
  refine ⟨fun h => check_absent mgr now aId cId ty h,
          fun r h hx => check_expired mgr now aId cId ty r h hx,
          fun r h hx hs => check_pending mgr now aId cId ty r h hx hs,
          fun r h hx hs => check_completed mgr now aId cId ty r h hx hs,
          fun r h hx hs =>
            ⟨fun hr => check_failed_exhausted mgr now aId cId ty r h hx hs hr,
             fun hr => check_failed_budget mgr now aId cId ty r h hx hs (not_le.mpr hr)⟩⟩

open IdempotencyManager in
/-- Witness for C2: instantiation at a pending record within its TTL. -/
theorem checkIdempotency_case_analysis_witness :
    checkIdempotency ⟨[("c1:a1", samplePendingRecord)], sampleIdemConfig⟩ 5
        "a1" "c1" "t" =
      ({ canProceed := false, existingRecord := some samplePendingRecord,
         reason := some "Action is still in progress" },
       ⟨[("c1:a1", samplePendingRecord)], sampleIdemConfig⟩) :=
  (checkIdempotency_case_analysis
      ⟨[("c1:a1", samplePendingRecord)], sampleIdemConfig⟩ 5 "a1" "c1" "t").2.2.1
    samplePendingRecord (by decide) (by decide) (by decide)

namespace IdempotencyManager

theorem exec_cached {α : Type} (mgr mgr₁ : IdempotencyManager α) (now : Int)
    (aId cId ty : String) (action : Except String α) (meta : Option Meta)
    (r : IdempotencyRecord α) (reason : Option String)
    (hchk : checkIdempotency mgr now aId cId ty =
      ({ canProceed := false, existingRecord := some r, reason := reason }, mgr₁))
    (hs : r.status = .completed) :
    executeWithIdempotency mgr now aId cId ty action meta =
      ({ success := true, result := r.result, fromCache := true }, mgr₁, false) := by
  rw [executeWithIdempotency, hchk]
  simp [hs]

theorem exec_refused {α : Type} (mgr mgr₁ : IdempotencyManager α) (now : Int)
    (aId cId ty : String) (action : Except String α) (meta : Option Meta)
    (r : IdempotencyRecord α) (reason : String)
    (hchk : checkIdempotency mgr now aId cId ty =
      ({ canProceed := false, existingRecord := some r, reason := some reason }, mgr₁))
    (hs : ¬ r.status = .completed) :
    executeWithIdempotency mgr now aId cId ty action meta =
      ({ success := false, fromCache := false, error := some reason }, mgr₁, false) := by
  rw [executeWithIdempotency, hchk]
  simp [hs]

theorem exec_proceed_ok {α : Type} (mgr mgr₁ : IdempotencyManager α) (now : Int)
    (aId cId ty : String) (meta : Option Meta)
    (er : Option (IdempotencyRecord α)) (v : α)
    (hchk : checkIdempotency mgr now aId cId ty =
      ({ canProceed := true, existingRecord := er, reason := none }, mgr₁)) :
    executeWithIdempotency mgr now aId cId ty (Except.ok v) meta =
      ({ success := true, result := some (.val v), fromCache := false },
       { mgr₁ with
         store := mgr₁.store.set (generateKey aId cId)
           { actionId := aId, customerId := cId, actionType := ty,
             status := .completed, result := some (.val v), createdAt := now,
             completedAt := some now, expiresAt := now + mgr₁.config.ttlMs,
             metadata := meta } }, true) := by
  rw [executeWithIdempotency, hchk]
  simp [storeAction, markCompleted, IdemStore.get_set_self, IdemStore.set_set]

theorem exec_proceed_error {α : Type} (mgr mgr₁ : IdempotencyManager α) (now : Int)
    (aId cId ty : String) (meta : Option Meta)
    (er : Option (IdempotencyRecord α)) (e : String)
    (hchk : checkIdempotency mgr now aId cId ty =
      ({ canProceed := true, existingRecord := er, reason := none }, mgr₁)) :
    executeWithIdempotency mgr now aId cId ty (Except.error e) meta =
      ({ success := false, fromCache := false, error := some e },
       { mgr₁ with
         store := mgr₁.store.set (generateKey aId cId)
           { actionId := aId, customerId := cId, actionType := ty,
             status := .failed, result := some (.errObj e now), createdAt := now,
             completedAt := some now, expiresAt := now + mgr₁.config.ttlMs,
             metadata := some { retryCount := some ((meta.bind Meta.retryCount).getD 0 + 1),
                                lastError := some e } } }, true) := by
  rw [executeWithIdempotency, hchk]
  simp [storeAction, markFailed, IdemStore.get_set_self, IdemStore.set_set]

end IdempotencyManager

namespace IdempotencyManager

theorem check_canProceed_shape {α : Type} (mgr : IdempotencyManager α) (now : Int)
    (aId cId ty : String)
    (h : (checkIdempotency mgr now aId cId ty).1.canProceed = true) :
    ∃ er mgr₁, checkIdempotency mgr now aId cId ty =
        ({ canProceed := true, existingRecord := er, reason := none }, mgr₁) ∧
      mgr₁.config = mgr.config := by
  rcases hg : mgr.store.get (generateKey aId cId) with _ | r
  · exact ⟨none, mgr, check_absent mgr now aId cId ty hg, rfl⟩
  · by_cases hx : now > r.expiresAt
    · exact ⟨none, _, check_expired mgr now aId cId ty r hg hx, rfl⟩
    · cases hs : r.status with
      | pending =>
          rw [check_pending mgr now aId cId ty r hg hx hs] at h
          simp at h
      | completed =>
          rw [check_completed mgr now aId cId ty r hg hx hs] at h
          simp at h
      | failed =>
          by_cases hr : (r.metadata.bind Meta.retryCount).getD 0 ≥ mgr.config.maxRetries
          · rw [check_failed_exhausted mgr now aId cId ty r hg hx hs hr] at h
            simp at h
          · exact ⟨some r, mgr, check_failed_budget mgr now aId cId ty r hg hx hs hr, rfl⟩

end IdempotencyManager

open IdempotencyManager in
/-- Claim C1: for every key, `executeWithIdempotency` invokes the supplied
action at most once effectively: if an unexpired record for the key is
completed, the call returns the cached result without invoking the action;
if the idempotency check refuses for any other reason (pending, or failed
with the retry budget exhausted), the call returns a failure carrying that
reason without invoking the action; otherwise it stores a pending record,
invokes the action exactly once, and marks the record completed or failed
according to the action's outcome, returning that outcome — and any further
call for the key within the TTL window after a completing execution is a
cache hit that does not invoke its action. -/
theorem executeWithIdempotency_at_most_once {α : Type}
    (mgr : IdempotencyManager α) (now : Int) (aId cId ty : String)
    (action : Except String α) (meta : Option Meta) :
    (∀ r, mgr.store.get (generateKey aId cId) = some r → ¬ now > r.expiresAt →
      r.status = .completed →
      executeWithIdempotency mgr now aId cId ty action meta =
        ({ success := true, result := r.result, fromCache := true }, mgr, false)) ∧
    (∀ r, mgr.store.get (generateKey aId cId) = some r → ¬ now > r.expiresAt →
      r.status = .pending →
      executeWithIdempotency mgr now aId cId ty action meta =
        ({ success := false, fromCache := false,
           error := some "Action is still in progress" }, mgr, false)) ∧
    (∀ r, mgr.store.get (generateKey aId cId) = some r → ¬ now > r.expiresAt →
      r.status = .failed →
      (r.metadata.bind Meta.retryCount).getD 0 ≥ mgr.config.maxRetries →
      executeWithIdempotency mgr now aId cId ty action meta =
        ({ success := false, fromCache := false,
           error := some "Max retries exceeded" }, mgr, false)) ∧
    ((checkIdempotency mgr now aId cId ty).1.canProceed = true →
      (executeWithIdempotency mgr now aId cId ty action meta).2.2 = true ∧
      (∀ v, action = .ok v →
        (executeWithIdempotency mgr now aId cId ty action meta).1 =
          { success := true, result := some (.val v), fromCache := false } ∧
        (executeWithIdempotency mgr now aId cId ty action meta).2.1.store.get
            (generateKey aId cId) =
          some { actionId := aId, customerId := cId, actionType := ty,
                 status := .completed, result := some (.val v), createdAt := now,
                 completedAt := some now, expiresAt := now + mgr.config.ttlMs,
                 metadata := meta }) ∧
      (∀ e, action = .error e →
        (executeWithIdempotency mgr now aId cId ty action meta).1 =
          { success := false, fromCache := false, error := some e } ∧
        (executeWithIdempotency mgr now aId cId ty action meta).2.1.store.get
            (generateKey aId cId) =
          some { actionId := aId, customerId := cId, actionType := ty,
                 status := .failed, result := some (.errObj e now), createdAt := now,
                 completedAt := some now, expiresAt := now + mgr.config.ttlMs,
                 metadata := some { retryCount :=
                                      some ((meta.bind Meta.retryCount).getD 0 + 1),
                                    lastError := some e } })) ∧
    ((checkIdempotency mgr now aId cId ty).1.canProceed = true →
      ∀ v, action = .ok v → ∀ t', ¬ t' > now + mgr.config.ttlMs →
      ∀ (action' : Except String α) (meta' : Option Meta),
        executeWithIdempotency
            (executeWithIdempotency mgr now aId cId ty action meta).2.1 t'
            aId cId ty action' meta' =
          ({ success := true, result := some (.val v), fromCache := true },
           (executeWithIdempotency mgr now aId cId ty action meta).2.1, false)) := by
  refine ⟨?_, ?_, ?_, ?_, ?_⟩
  · intro r h hx hs
    exact exec_cached mgr mgr now aId cId ty action meta r _
      (check_completed mgr now aId cId ty r h hx hs) hs
  · intro r h hx hs
    refine exec_refused mgr mgr now aId cId ty action meta r _
      (check_pending mgr now aId cId ty r h hx hs) ?_
    simp [hs]
  · intro r h hx hs hr
    refine exec_refused mgr mgr now aId cId ty action meta r _
      (check_failed_exhausted mgr now aId cId ty r h hx hs hr) ?_
    simp [hs]
  · intro hcp
    obtain ⟨er, mgr₁, hchk, hcfg⟩ := check_canProceed_shape mgr now aId cId ty hcp
    refine ⟨?_, ?_, ?_⟩
    · cases action with
      | ok v => rw [exec_proceed_ok mgr mgr₁ now aId cId ty meta er v hchk]
      | error e => rw [exec_proceed_error mgr mgr₁ now aId cId ty meta er e hchk]
    · intro v hv
      subst hv
      rw [exec_proceed_ok mgr mgr₁ now aId cId ty meta er v hchk]
      exact ⟨rfl, by simp [IdemStore.get_set_self, hcfg]⟩
    · intro e he
      subst he
      rw [exec_proceed_error mgr mgr₁ now aId cId ty meta er e hchk]
      exact ⟨rfl, by simp [IdemStore.get_set_self, hcfg]⟩
  · intro hcp v hv t' ht' action' meta'
    subst hv
    obtain ⟨er, mgr₁, hchk, hcfg⟩ := check_canProceed_shape mgr now aId cId ty hcp
    rw [exec_proceed_ok mgr mgr₁ now aId cId ty meta er v hchk]
    have hget : (IdemStore.set mgr₁.store (generateKey aId cId)
        { actionId := aId, customerId := cId, actionType := ty,
          status := .completed, result := some (.val v), createdAt := now,
          completedAt := some now, expiresAt := now + mgr₁.config.ttlMs,
          metadata := meta }).get (generateKey aId cId) =
        some { actionId := aId, customerId := cId, actionType := ty,
               status := .completed, result := some (.val v), createdAt := now,
               completedAt := some now, expiresAt := now + mgr₁.config.ttlMs,
               metadata := meta } := IdemStore.get_set_self _ _ _
    have hx' : ¬ t' > now + mgr₁.config.ttlMs := by
      rw [hcfg]
      exact ht'
    have hchk₂ : checkIdempotency
        (⟨IdemStore.set mgr₁.store (generateKey aId cId)
            ⟨aId, cId, ty, .completed, some (.val v), now, some now,
             now + mgr₁.config.ttlMs, meta⟩, mgr₁.config⟩ : IdempotencyManager α) t'
        aId cId ty =
      ({ canProceed := false,
         existingRecord := some ⟨aId, cId, ty, .completed, some (.val v), now,
           some now, now + mgr₁.config.ttlMs, meta⟩,
         reason := some "Action already completed" },
       ⟨IdemStore.set mgr₁.store (generateKey aId cId)
            ⟨aId, cId, ty, .completed, some (.val v), now, some now,
             now + mgr₁.config.ttlMs, meta⟩, mgr₁.config⟩) :=
      check_completed _ t' aId cId ty _ hget hx' rfl
    exact exec_cached _ _ t' aId cId ty action' meta' _ _ hchk₂ rfl

open IdempotencyManager in
/-- Witness for C1: instantiation at a completed cached record within its
TTL — the second caller gets the cached 42 and the action is not invoked. -/
theorem executeWithIdempotency_at_most_once_witness :
    executeWithIdempotency ⟨[("c1:a1", sampleCompletedRecord)], sampleIdemConfig⟩ 5
        "a1" "c1" "t" (Except.ok 7) none =
      ({ success := true, result := some (.val 42), fromCache := true },
       ⟨[("c1:a1", sampleCompletedRecord)], sampleIdemConfig⟩, false) :=
  (executeWithIdempotency_at_most_once
      ⟨[("c1:a1", sampleCompletedRecord)], sampleIdemConfig⟩ 5 "a1" "c1" "t"
      (Except.ok 7) none).1 sampleCompletedRecord (by decide) (by decide) (by decide)

open MessageBroker in
/-- Claim C5: for every retry of a failed message, the scheduled backoff
delay is `retryDelay * 2^(attempt-1)` where the attempt number is the
previous retry count plus one (1-indexed at the first retry), the scheduled
message carries the incremented count, and when the timer fires the retried
message is reinserted at the head of the queue. -/
theorem retry_backoff_delay (st : BrokerState) (msg : Message) (prev : Nat)
    (hrc : msg.retryCount = some (prev : Int))
    (hbudget : (prev : Int) + 1 ≤ st.config.maxRetries) :
    handleFailedMessage st msg =
      { st with pendingTimers := st.pendingTimers ++
          [(st.config.retryDelay * 2 ^ prev,
            { msg with retryCount := some ((prev : Int) + 1) })] } ∧
    (∀ (st₂ : BrokerState) (d : Int) (m : Message) (rest : List (Int × Message)),
      st₂.pendingTimers = (d, m) :: rest →
      fireRetryTimer st₂ 0 =
        { st₂ with messageQueue := m :: st₂.messageQueue,
                   pendingTimers := rest }) := by
  constructor
  · rw [handleFailedMessage]
    simp only [hrc, Option.getD_some]
    rw [if_pos hbudget]
    norm_num
  · intro st₂ d m rest h
    rw [fireRetryTimer, h]
    simp [List.eraseIdx]

open MessageBroker in
/-- Witness for C5: with `maxRetries = 3` and `retryDelay = 1000` ms the
delays scheduled for attempts 1, 2, 3 are exactly 1000, 2000, 4000 ms. -/
theorem retry_backoff_delay_witness :
    handleFailedMessage ⟨[], [], true, [], sampleBrokerConfig⟩ sampleMessage =
      ⟨[], [], true, [(1000, { sampleMessage with retryCount := some 1 })],
       sampleBrokerConfig⟩ ∧
    handleFailedMessage ⟨[], [], true, [], sampleBrokerConfig⟩
        { sampleMessage with retryCount := some 1 } =
      ⟨[], [], true, [(2000, { sampleMessage with retryCount := some 2 })],
       sampleBrokerConfig⟩ ∧
    handleFailedMessage ⟨[], [], true, [], sampleBrokerConfig⟩
        { sampleMessage with retryCount := some 2 } =
      ⟨[], [], true, [(4000, { sampleMessage with retryCount := some 3 })],
       sampleBrokerConfig⟩ := by
  refine ⟨?_, ?_, ?_⟩
  · rw [(retry_backoff_delay ⟨[], [], true, [], sampleBrokerConfig⟩ sampleMessage 0
      (by decide) (by decide)).1]
    decide
  · rw [(retry_backoff_delay ⟨[], [], true, [], sampleBrokerConfig⟩
      { sampleMessage with retryCount := some 1 } 1 (by decide) (by decide)).1]
    decide
  · rw [(retry_backoff_delay ⟨[], [], true, [], sampleBrokerConfig⟩
      { sampleMessage with retryCount := some 2 } 2 (by decide) (by decide)).1]
    decide

open MessageBroker in
/-- Claim C6: the dead-letter sink never exceeds the configured capacity:
when an entry is inserted into a sink already at (positive) capacity, the
oldest entry is evicted and the new entry appended, and when below capacity
the entry is simply appended, so the size stays bounded by
`deadLetterQueueSize` after every insertion. -/
theorem deadLetterQueue_bounded (st : BrokerState) (m : Message)
    (hcap : 0 < st.config.deadLetterQueueSize)
    (hlen : (st.deadLetterQueue.length : Int) ≤ st.config.deadLetterQueueSize) :
    ((moveToDeadLetterQueue st m).deadLetterQueue.length : Int) ≤
      st.config.deadLetterQueueSize ∧
    ((st.deadLetterQueue.length : Int) = st.config.deadLetterQueueSize →
      (moveToDeadLetterQueue st m).deadLetterQueue =
        st.deadLetterQueue.drop 1 ++ [m]) ∧
    ((st.deadLetterQueue.length : Int) < st.config.deadLetterQueueSize →
      (moveToDeadLetterQueue st m).deadLetterQueue =
        st.deadLetterQueue ++ [m]) := by
  refine ⟨?_, ?_, ?_⟩
  · rw [moveToDeadLetterQueue]
    by_cases h : (st.deadLetterQueue.length : Int) ≥ st.config.deadLetterQueueSize
    · rw [if_pos h]
      simp only [List.length_append, List.length_drop, List.length_singleton]
      omega
    · rw [if_neg h]
      simp only [List.length_append, List.length_singleton]
      omega
  · intro h
    rw [moveToDeadLetterQueue]
    rw [if_pos (le_of_eq h.symm)]
  · intro h
    rw [moveToDeadLetterQueue]
    rw [if_neg (not_le.mpr h)]

open MessageBroker in
/-- Witness for C6: inserting into a sink at capacity 2 evicts the oldest
entry and keeps the size at 2. -/
theorem deadLetterQueue_bounded_witness :
    (moveToDeadLetterQueue
        ⟨[], [{ id := "a", channel := .web, content := "", timestamp := 0 },
              { id := "b", channel := .web, content := "", timestamp := 0 }],
         false, [], ⟨3, 1000, 2⟩⟩
        { id := "c", channel := .web, content := "", timestamp := 0 }).deadLetterQueue =
      [{ id := "b", channel := .web, content := "", timestamp := 0 },
       { id := "c", channel := .web, content := "", timestamp := 0 }] := by
  rw [(deadLetterQueue_bounded
      ⟨[], [{ id := "a", channel := .web, content := "", timestamp := 0 },
            { id := "b", channel := .web, content := "", timestamp := 0 }],
       false, [], ⟨3, 1000, 2⟩⟩
      { id := "c", channel := .web, content := "", timestamp := 0 }
      (by decide) (by decide)).2.1 (by decide)]
  decide

namespace MessageBroker

theorem extractById_isSome_iff (l : List Message) (id : String) :
    (extractById l id).isSome ↔ ∃ m ∈ l, m.id = id := by
  induction l with
  | nil => simp [extractById]
  | cons hd tl ih =>
      by_cases h : hd.id = id
      · simp [extractById, h]
      · simp [extractById, h, Option.isSome_map, ih]

theorem extractById_eq_some (l : List Message) (id : String) (m : Message)
    (rest : List Message) (h : extractById l id = some (m, rest)) :
    m.id = id ∧
    l.countP (fun x => x.id == id) = rest.countP (fun x => x.id == id) + 1 := by
  induction l generalizing m rest with
  | nil => simp [extractById] at h
  | cons hd tl ih =>
      by_cases hh : hd.id = id
      · rw [extractById, if_pos hh] at h
        obtain ⟨rfl, rfl⟩ := Prod.mk.injEq .. ▸ Option.some.inj h
        simp [List.countP_cons, hh]
      · rw [extractById, if_neg hh] at h
        rcases Option.map_eq_some'.mp h with ⟨⟨m', rest'⟩, hm', heq⟩
        obtain ⟨rfl, rfl⟩ := Prod.mk.injEq .. ▸ heq
        obtain ⟨h1, h2⟩ := ih m' rest' hm'
        refine ⟨h1, ?_⟩
        simp [List.countP_cons, hh, h2]

theorem extractById_of_countP_zero (l : List Message) (id : String)
    (h : l.countP (fun x => x.id == id) = 0) : extractById l id = none := by
  induction l with
  | nil => simp [extractById]
  | cons hd tl ih =>
      rw [List.countP_cons] at h
      by_cases hh : hd.id = id
      · simp [hh] at h
      · rw [extractById, if_neg hh, ih (by simpa [hh] using h)]
        rfl

end MessageBroker

open MessageBroker in
/-- Claim C7: `retryDeadLetterMessage` returns true exactly when a
dead-letter entry with the requested id is present; when present it removes
that entry from the dead-letter queue, resets its retry count to 0,
re-enqueues it at the tail of the active queue, and leaves the dispatcher
running; when the id is absent it returns false and changes nothing — in
particular, if the id occurred at most once, a second call after a
successful requeue returns false and changes nothing. -/
theorem retryDeadLetterMessage_spec (st : BrokerState) (mid : String) :
    ((retryDeadLetterMessage st mid).1 = true ↔
      ∃ m ∈ st.deadLetterQueue, m.id = mid) ∧
    (∀ m rest, extractById st.deadLetterQueue mid = some (m, rest) →
      retryDeadLetterMessage st mid =
        (true, { st with deadLetterQueue := rest,
                         messageQueue :=
                           st.messageQueue ++ [{ m with retryCount := some 0 }],
                         processing := true })) ∧
    ((¬ ∃ m ∈ st.deadLetterQueue, m.id = mid) →
      retryDeadLetterMessage st mid = (false, st)) ∧
    (st.deadLetterQueue.countP (fun x => x.id == mid) ≤ 1 →
      (retryDeadLetterMessage st mid).1 = true →
      retryDeadLetterMessage (retryDeadLetterMessage st mid).2 mid =
        (false, (retryDeadLetterMessage st mid).2)) := by
  have hmain : ∀ m rest, extractById st.deadLetterQueue mid = some (m, rest) →
      retryDeadLetterMessage st mid =
        (true, { st with deadLetterQueue := rest,
                         messageQueue :=
                           st.messageQueue ++ [{ m with retryCount := some 0 }],
                         processing := true }) := by
    intro m rest h
    by_cases hp : st.processing <;> simp [retryDeadLetterMessage, h, hp]
  refine ⟨?_, hmain, ?_, ?_⟩
  · rcases hx : extractById st.deadLetterQueue mid with _ | ⟨m, rest⟩
    · have := (extractById_isSome_iff st.deadLetterQueue mid).symm
      rw [hx] at this
      simp only [retryDeadLetterMessage, hx]
      simpa using this.symm
    · have h1 : (retryDeadLetterMessage st mid).1 = true := by
        rw [hmain m rest hx]
      have h2 : (extractById st.deadLetterQueue mid).isSome := by
        rw [hx]; rfl
      simp [h1, (extractById_isSome_iff st.deadLetterQueue mid).mp h2]
  · intro hne
    have : ¬ (extractById st.deadLetterQueue mid).isSome := by
      rw [extractById_isSome_iff]; exact hne
    rcases hx : extractById st.deadLetterQueue mid with _ | p
    · simp [retryDeadLetterMessage, hx]
    · rw [hx] at this; simp at this
  · intro hcount hb
    rcases hx : extractById st.deadLetterQueue mid with _ | ⟨m, rest⟩
    · simp only [retryDeadLetterMessage, hx] at hb
      exact Bool.noConfusion hb
    · rw [hmain m rest hx]
      obtain ⟨_, hc⟩ := extractById_eq_some st.deadLetterQueue mid m rest hx
      have hrest : rest.countP (fun x => x.id == mid) = 0 := by omega
      have hnone := extractById_of_countP_zero rest mid hrest
      simp [retryDeadLetterMessage, hnone]

open MessageBroker in
/-- Witness for C7: requeuing a present dead-letter id succeeds once and
moves the entry (count reset) to the active queue tail; the second call with
the same id returns false and changes nothing. -/
theorem retryDeadLetterMessage_spec_witness :
    retryDeadLetterMessage
        ⟨[], [{ id := "d1", channel := .email, content := "x", timestamp := 0,
                retryCount := some 3 }], false, [], sampleBrokerConfig⟩ "d1" =
      (true, ⟨[{ id := "d1", channel := .email, content := "x", timestamp := 0,
                 retryCount := some 0 }], [], true, [], sampleBrokerConfig⟩) ∧
    retryDeadLetterMessage
        ⟨[{ id := "d1", channel := .email, content := "x", timestamp := 0,
            retryCount := some 0 }], [], true, [], sampleBrokerConfig⟩ "d1" =
      (false, ⟨[{ id := "d1", channel := .email, content := "x", timestamp := 0,
                  retryCount := some 0 }], [], true, [], sampleBrokerConfig⟩) := by
  constructor
  · rw [(retryDeadLetterMessage_spec
        ⟨[], [{ id := "d1", channel := .email, content := "x", timestamp := 0,
                retryCount := some 3 }], false, [], sampleBrokerConfig⟩ "d1").2.1
        { id := "d1", channel := .email, content := "x", timestamp := 0,
          retryCount := some 3 } [] (by decide)]
    decide
  · exact (retryDeadLetterMessage_spec
        ⟨[], [{ id := "d1", channel := .email, content := "x", timestamp := 0,
                retryCount := some 3 }], false, [], sampleBrokerConfig⟩ "d1").2.2.2
        (by decide) (by decide)

open MessageBroker in
/-- Claim C4 (counterexample): the delayed retry-reinsertion callback does
not restart an idle dispatcher.  From the concrete idle state holding one
pending retry timer, firing the timer leaves a non-empty queue with
`processing` still false — the reinserted message waits with the dispatcher
idle, contradicting the claim that every retry-reinsertion step from an idle
state leaves the dispatcher running. -/
theorem fireRetryTimer_leaves_dispatcher_idle :
    (⟨[], [], false,
       [(1000, { id := "m1", channel := .web, content := "hello",
                 timestamp := 0, retryCount := some 1 })],
       sampleBrokerConfig⟩ : BrokerState).processing = false ∧
    fireRetryTimer
        ⟨[], [], false,
         [(1000, { id := "m1", channel := .web, content := "hello",
                   timestamp := 0, retryCount := some 1 })],
         sampleBrokerConfig⟩ 0 =
      ⟨[{ id := "m1", channel := .web, content := "hello",
          timestamp := 0, retryCount := some 1 }], [], false, [],
       sampleBrokerConfig⟩ ∧
    (fireRetryTimer
        ⟨[], [], false,
         [(1000, { id := "m1", channel := .web, content := "hello",
                   timestamp := 0, retryCount := some 1 })],
         sampleBrokerConfig⟩ 0).processing = false ∧
    (fireRetryTimer
        ⟨[], [], false,
         [(1000, { id := "m1", channel := .web, content := "hello",
                   timestamp := 0, retryCount := some 1 })],
         sampleBrokerConfig⟩ 0).messageQueue ≠ [] := by
  refine ⟨rfl, by decide, by decide, by decide⟩

open MessageBroker in
/-- Claim C4 (amended): the dispatcher loop goes idle exactly when the queue
becomes empty, and it is restarted by `publishMessage` and by a successful
`retryDeadLetterMessage`; the delayed retry-reinsertion callback, however,
only unshifts the retried message and never changes `processing`, so a
message reinserted while the dispatcher is idle waits until the next publish
or requeue. -/
theorem dispatcher_idle_and_restart (st : BrokerState) :
    (st.messageQueue = [] → ∀ handlerOk,
      (processQueueStep st handlerOk).processing = false) ∧
    (∀ m rest, st.messageQueue = m :: rest → ∀ handlerOk,
      (processQueueStep st handlerOk).processing = st.processing) ∧
    (∀ id channel content now,
      (publishMessage st id channel content now).processing = true) ∧
    (∀ mid, (retryDeadLetterMessage st mid).1 = true →
      (retryDeadLetterMessage st mid).2.processing = true) ∧
    (∀ i, (fireRetryTimer st i).processing = st.processing) := by
  refine ⟨?_, ?_, ?_, ?_, ?_⟩
  · intro h handlerOk
    simp [processQueueStep, h]
  · intro m rest h handlerOk
    rw [processQueueStep]
    rcases hq : st.messageQueue with _ | ⟨m', rest'⟩
    · rw [hq] at h; exact absurd h (List.noConfusion)
    · simp only
      by_cases hok : handlerOk
      · simp [hok]
      · simp only [hok, if_neg, Bool.false_eq_true, not_false_eq_true]
        rw [handleFailedMessage]
        by_cases hb : m'.retryCount.getD 0 + 1 ≤ st.config.maxRetries
        · rw [if_pos hb]
        · rw [if_neg hb, moveToDeadLetterQueue]
  · intro id channel content now
    rw [publishMessage]
    by_cases hp : st.processing <;> simp [hp]
  · intro mid hb
    rcases hx : extractById st.deadLetterQueue mid with _ | ⟨m, rest⟩
    · simp only [retryDeadLetterMessage, hx] at hb
      exact Bool.noConfusion hb
    · rw [retryDeadLetterMessage]
      rw [hx]
      by_cases hp : st.processing <;> simp [hp]
  · intro i
    rw [fireRetryTimer]
    rcases hx : st.pendingTimers.get? i with _ | ⟨d, m⟩ <;> simp

open MessageBroker in
/-- Witness for the amended C4: from a running dispatcher with an empty
queue, the loop exits and goes idle. -/
theorem dispatcher_idle_and_restart_witness :
    (processQueueStep ⟨[], [], true, [], sampleBrokerConfig⟩ true).processing =
      false :=
  (dispatcher_idle_and_restart ⟨[], [], true, [], sampleBrokerConfig⟩).1 rfl true

/-- Claim C9 (counterexample): invalid configurations are not rejected at
construction time.  Constructing a broker with `maxRetries = -1` and
dead-letter capacity 0, or an idempotency manager with `maxRetries = -1`,
succeeds and stores the configuration verbatim, and publishing on the
resulting broker proceeds normally — there is no fail-fast rejection. -/
theorem invalid_config_construction_succeeds :
    MessageBroker.new ⟨-1, 1000, 0⟩ = ⟨[], [], false, [], ⟨-1, 1000, 0⟩⟩ ∧
    IdempotencyManager.new Nat ⟨86400000, -1, 3600000⟩ =
      ⟨[], ⟨86400000, -1, 3600000⟩⟩ ∧
    (MessageBroker.publishMessage (MessageBroker.new ⟨-1, 1000, 0⟩)
        "m1" .web "hi" 0).messageQueue =
      [{ id := "m1", channel := .web, content := "hi", timestamp := 0,
         retryCount := some 0 }] :=
  ⟨rfl, rfl, by decide⟩

/-- Claim C9 (amended): neither constructor validates its configuration:
any configuration — including a negative `maxRetries` or a non-positive
dead-letter capacity — is accepted and stored verbatim at construction, and
no configuration error is raised at operation-call time either; operations
simply run with the invalid values (with a negative broker `maxRetries`,
every failed message is dead-lettered immediately; an idempotency manager
with any configuration still lets a fresh key proceed). -/
theorem constructors_accept_any_config :
    (∀ config : MessageBrokerConfig,
      MessageBroker.new config = ⟨[], [], false, [], config⟩) ∧
    (∀ (α : Type) (config : IdempotencyConfig),
      IdempotencyManager.new α config = ⟨[], config⟩) ∧
    (∀ (st : BrokerState) (msg : Message) (n : Nat),
      st.config.maxRetries < 0 → msg.retryCount = some (n : Int) →
      MessageBroker.handleFailedMessage st msg =
        MessageBroker.moveToDeadLetterQueue st msg) ∧
    (∀ (α : Type) (config : IdempotencyConfig) (now : Int) (aId cId ty : String),
      (IdempotencyManager.checkIdempotency (IdempotencyManager.new α config)
          now aId cId ty).1.canProceed = true) := by
  refine ⟨fun _ => rfl, fun _ _ => rfl, ?_, ?_⟩
  · intro st msg n hneg hrc
    rw [MessageBroker.handleFailedMessage]
    rw [if_neg]
    simp only [hrc, Option.getD_some]
    omega
  · intro α config now aId cId ty
    rw [IdempotencyManager.check_absent (IdempotencyManager.new α config)
      now aId cId ty rfl]

/-- Witness for the amended C9: with `maxRetries = -1`, the first failure is
dead-lettered immediately — surfaced as behavior, not as an error. -/
theorem constructors_accept_any_config_witness :
    MessageBroker.handleFailedMessage ⟨[], [], true, [], ⟨-1, 1000, 0⟩⟩
        sampleMessage =
      MessageBroker.moveToDeadLetterQueue ⟨[], [], true, [], ⟨-1, 1000, 0⟩⟩
        sampleMessage :=
  constructors_accept_any_config.2.2.1 ⟨[], [], true, [], ⟨-1, 1000, 0⟩⟩
    sampleMessage 0 (by decide) (by decide)

open IdempotencyManager in
/-- Claim C8 (counterexample): the key encoding `customerId ++ ":" ++
actionId` is not injective on pairs of strings: the distinct pairs
(actorId `"a:b"`, actionId `"c"`) and (actorId `"a"`, actionId `"b:c"`)
produce the same key, so a record stored under one pair is read by
operations on the other — here a pending record under the shared key blocks
both pairs. -/
theorem generateKey_not_injective :
    (("a:b", "c") : String × String) ≠ ("a", "b:c") ∧
    generateKey "c" "a:b" = generateKey "b:c" "a" ∧
    (checkIdempotency
        ⟨[("a:b:c", samplePendingRecord)], sampleIdemConfig⟩ 5
        "c" "a:b" "t").1.canProceed = false ∧
    (checkIdempotency
        ⟨[("a:b:c", samplePendingRecord)], sampleIdemConfig⟩ 5
        "b:c" "a" "t").1.canProceed = false := by
  refine ⟨by decide, by decide, by decide, by decide⟩

theorem colon_append_inj (c₁ : List Char) (a₁ : List Char) (c₂ a₂ : List Char)
    (h₁ : ':' ∉ c₁) (h₂ : ':' ∉ c₂)
    (h : c₁ ++ ':' :: a₁ = c₂ ++ ':' :: a₂) : c₁ = c₂ ∧ a₁ = a₂ := by
  induction c₁ generalizing c₂ with
  | nil =>
      cases c₂ with
      | nil => simpa using h
      | cons y s =>
          simp only [List.nil_append, List.cons_append, List.cons.injEq] at h
          exact absurd (h.1 ▸ List.mem_cons_self y s) h₂
  | cons x t ih =>
      cases c₂ with
      | nil =>
          simp only [List.cons_append, List.nil_append, List.cons.injEq] at h
          exact absurd (h.1 ▸ List.mem_cons_self x t) h₁
      | cons y s =>
          simp only [List.cons_append, List.cons.injEq] at h
          obtain ⟨hxy, ht⟩ := h
          have h₁' : ':' ∉ t := fun hm => h₁ (List.mem_cons_of_mem x hm)
          have h₂' : ':' ∉ s := fun hm => h₂ (List.mem_cons_of_mem y hm)
          obtain ⟨hc, ha⟩ := ih s h₁' h₂' ht
          exact ⟨by rw [hxy, hc], ha⟩

open IdempotencyManager in
/-- Claim C8 (amended): the key encoding is injective on pairs whose actor
(customer) id contains no colon: for such pairs, equal keys force equal
customer ids and equal action ids, so distinct pairs get distinct store keys
and operations on one pair never touch the record of another. -/
theorem generateKey_injective_without_colon (a₁ c₁ a₂ c₂ : String)
    (h₁ : ':' ∉ c₁.data) (h₂ : ':' ∉ c₂.data)
    (h : generateKey a₁ c₁ = generateKey a₂ c₂) :
    c₁ = c₂ ∧ a₁ = a₂ := by
  have hd := congrArg String.data h
  simp only [generateKey, String.data_append] at hd
  rw [List.append_assoc, List.append_assoc, List.singleton_append,
    List.singleton_append] at hd
  obtain ⟨hc, ha⟩ := colon_append_inj c₁.data a₁.data c₂.data a₂.data h₁ h₂ hd
  exact ⟨String.ext hc, String.ext ha⟩

open IdempotencyManager in
/-- Witness for the amended C8: colon-free customer ids with equal keys are
equal componentwise. -/
theorem generateKey_injective_without_colon_witness :
    (':' ∉ "alice".data) ∧ ("alice" : String) = "alice" ∧ ("x" : String) = "x" :=
  ⟨by decide,
   (generateKey_injective_without_colon "x" "alice" "x" "alice"
      (by decide) (by decide) rfl).1,
   (generateKey_injective_without_colon "x" "alice" "x" "alice"
      (by decide) (by decide) rfl).2⟩

namespace MessageBroker

theorem runAlwaysFail_step_dispatch (q : List Message) (m : Message)
    (dlq : List Message) (proc : Bool) (timers : List (Int × Message))
    (cfg : MessageBrokerConfig) (fuel : Nat) :
    runAlwaysFail ⟨m :: q, dlq, proc, timers, cfg⟩ (fuel + 1) =
      ((runAlwaysFail (handleFailedMessage ⟨q, dlq, proc, timers, cfg⟩ m) fuel).1,
       (runAlwaysFail (handleFailedMessage ⟨q, dlq, proc, timers, cfg⟩ m) fuel).2
         + 1) := rfl

theorem runAlwaysFail_step_fire (dlq : List Message) (proc : Bool)
    (t : Int × Message) (timers : List (Int × Message))
    (cfg : MessageBrokerConfig) (fuel : Nat) :
    runAlwaysFail ⟨[], dlq, proc, t :: timers, cfg⟩ (fuel + 1) =
      runAlwaysFail (fireRetryTimer ⟨[], dlq, proc, t :: timers, cfg⟩ 0) fuel :=
  rfl

theorem runAlwaysFail_step_stop (dlq : List Message) (proc : Bool)
    (cfg : MessageBrokerConfig) (fuel : Nat) :
    runAlwaysFail ⟨[], dlq, proc, [], cfg⟩ (fuel + 1) =
      (⟨[], dlq, proc, [], cfg⟩, 0) := rfl

theorem runAlwaysFail_from (cfg : MessageBrokerConfig) (d : Nat) :
    ∀ (j : Nat) (msg : Message) (dlq : List Message) (proc : Bool),
      msg.retryCount = some (j : Int) →
      cfg.maxRetries = ((j + d : Nat) : Int) →
      runAlwaysFail ⟨[msg], dlq, proc, [], cfg⟩ (2 * d + 2) =
        (⟨[], (if (dlq.length : Int) ≥ cfg.deadLetterQueueSize
               then dlq.drop 1 else dlq) ++
              [{ msg with retryCount := some ((j + d : Nat) : Int) }],
          proc, [], cfg⟩, d + 1) := by
  induction d with
  | zero =>
      intro j msg dlq proc hrc hmax
      have hcond : ¬ ((j : Int) + 1 ≤ cfg.maxRetries) := by
        rw [hmax]; push_cast; omega
      have hhf : handleFailedMessage ⟨[], dlq, proc, [], cfg⟩ msg =
          moveToDeadLetterQueue ⟨[], dlq, proc, [], cfg⟩ msg := by
        rw [handleFailedMessage]
        simp only [hrc, Option.getD_some]
        rw [if_neg hcond]
      have hmsg : ({ msg with retryCount := some ((j + 0 : Nat) : Int) } :
          Message) = msg := by
        cases msg
        simp_all
      have e : 2 * 0 + 2 = 1 + 1 := rfl
      rw [e, runAlwaysFail_step_dispatch, hhf, moveToDeadLetterQueue]
      simp only [hmsg]
      rfl
  | succ d ih =>
      intro j msg dlq proc hrc hmax
      have hcond : (j : Int) + 1 ≤ cfg.maxRetries := by
        rw [hmax]; push_cast; omega
      have hhf : handleFailedMessage ⟨[], dlq, proc, [], cfg⟩ msg =
          ⟨[], dlq, proc,
           [(cfg.retryDelay * 2 ^ ((j : Int) + 1 - 1).toNat,
             { msg with retryCount := some ((j : Int) + 1) })], cfg⟩ := by
        rw [handleFailedMessage]
        simp only [hrc, Option.getD_some]
        rw [if_pos hcond]
        simp
      have e : 2 * (d + 1) + 2 = (2 * d + 3) + 1 := by omega
      rw [e, runAlwaysFail_step_dispatch, hhf]
      have e2 : 2 * d + 3 = (2 * d + 2) + 1 := rfl
      rw [e2, runAlwaysFail_step_fire]
      have hfire : fireRetryTimer
          ⟨[], dlq, proc,
           [(cfg.retryDelay * 2 ^ ((j : Int) + 1 - 1).toNat,
             { msg with retryCount := some ((j : Int) + 1) })], cfg⟩ 0 =
          ⟨[{ msg with retryCount := some ((j : Int) + 1) }], dlq, proc, [],
           cfg⟩ := rfl
      rw [hfire]
      have hih := ih (j + 1) { msg with retryCount := some ((j : Int) + 1) }
        dlq proc (by push_cast; rfl) (by rw [hmax]; congr 1; omega)
      rw [hih]
      have hmsg : ({ ({ msg with retryCount := some ((j : Int) + 1) } : Message)
            with retryCount := some ((j + 1 + d : Nat) : Int) } : Message) =
          { msg with retryCount := some ((j + (d + 1) : Nat) : Int) } := by
        cases msg
        simp only [Message.mk.injEq, Option.some.injEq, and_true, true_and]
        push_cast
        omega
      rw [hmsg]

end MessageBroker

open MessageBroker in
/-- Claim C3: the retry budget check precedes scheduling — a failed delivery
whose incremented attempt count is within `maxRetries` is re-scheduled, and
one whose incremented count exceeds `maxRetries` is moved to the dead-letter
queue; consequently, in the trace where the handler fails on every attempt
(and every scheduled retry fires and is dispatched), a message first
published with retry count 0 undergoes exactly `maxRetries + 1` handler
attempts, ends up in the dead-letter sink (never dropped), and the active
queue count returns to 0. -/
theorem alwaysFailing_handler_deadLetters (cfg : MessageBrokerConfig) (k : Nat)
    (hmax : cfg.maxRetries = (k : Int)) (msg : Message)
    (hrc : msg.retryCount = some 0) (proc : Bool) :
    (∀ (st : BrokerState) (m : Message),
      (m.retryCount.getD 0 + 1 ≤ st.config.maxRetries →
        handleFailedMessage st m =
          { st with pendingTimers := st.pendingTimers ++
              [(st.config.retryDelay * 2 ^ (m.retryCount.getD 0 + 1 - 1).toNat,
                { m with retryCount := some (m.retryCount.getD 0 + 1) })] }) ∧
      (¬ m.retryCount.getD 0 + 1 ≤ st.config.maxRetries →
        handleFailedMessage st m = moveToDeadLetterQueue st m)) ∧
    runAlwaysFail ⟨[msg], [], proc, [], cfg⟩ (2 * k + 2) =
      (⟨[], [{ msg with retryCount := some (k : Int) }], proc, [], cfg⟩,
       k + 1) := by
  constructor
  · intro st m
    constructor
    · intro hb
      rw [handleFailedMessage, if_pos hb]
    · intro hb
      rw [handleFailedMessage, if_neg hb]
  · have h := runAlwaysFail_from cfg k 0 msg [] proc (by simpa using hrc)
      (by simpa using hmax)
    simpa using h

open MessageBroker in
/-- Witness for C3: with the default configuration (`maxRetries = 3`) an
always-failing message is dead-lettered with the queue empty after exactly 4
handler attempts. -/
theorem alwaysFailing_handler_deadLetters_witness :
    runAlwaysFail ⟨[sampleMessage], [], true, [], sampleBrokerConfig⟩ 8 =
      (⟨[], [{ sampleMessage with retryCount := some 3 }], true, [],
        sampleBrokerConfig⟩, 4) :=
  (alwaysFailing_handler_deadLetters sampleBrokerConfig 3 (by decide)
    sampleMessage (by decide) true).2

namespace IdempotencyManager

theorem failing_call_step {α : Type} (cfg : IdempotencyConfig)
    (hmax : 1 < cfg.maxRetries) (aId cId ty e : String) (now : Int)
    (mgr : IdempotencyManager α) (hcfg : mgr.config = cfg)
    (hinv : mgr.store = [] ∨
      ∃ t, mgr.store = [(generateKey aId cId, failedRecord α aId cId ty e cfg t)]) :
    executeWithIdempotency mgr now aId cId ty (Except.error e) none =
      ({ success := false, fromCache := false, error := some e },
       ⟨[(generateKey aId cId, failedRecord α aId cId ty e cfg now)], cfg⟩,
       true) := by
  rcases hinv with h0 | ⟨t, ht⟩
  · have hget : mgr.store.get (generateKey aId cId) = none := by
      rw [h0]; rfl
    rw [exec_proceed_error mgr mgr now aId cId ty none none e
      (check_absent mgr now aId cId ty hget)]
    obtain ⟨st, cf⟩ := mgr
    simp only at h0 hcfg
    subst h0 hcfg
    simp [IdemStore.set, failedRecord]
  · have hget : mgr.store.get (generateKey aId cId) =
        some (failedRecord α aId cId ty e cfg t) := by
      rw [ht]
      simp [IdemStore.get]
    by_cases hx : now > (failedRecord α aId cId ty e cfg t).expiresAt
    · rw [exec_proceed_error mgr { mgr with store := mgr.store.delete (generateKey aId cId) }
        now aId cId ty none none e
        (check_expired mgr now aId cId ty (failedRecord α aId cId ty e cfg t) hget hx)]
      obtain ⟨st, cf⟩ := mgr
      simp only at ht hcfg
      subst ht hcfg
      simp [IdemStore.set, IdemStore.delete, failedRecord]
    · have hs : (failedRecord α aId cId ty e cfg t).status = .failed := rfl
      have hr : ¬ ((failedRecord α aId cId ty e cfg t).metadata.bind
          Meta.retryCount).getD 0 ≥ cfg.maxRetries := by
        have h1 : ((failedRecord α aId cId ty e cfg t).metadata.bind
            Meta.retryCount).getD 0 = 1 := rfl
        rw [h1]
        omega
      rw [exec_proceed_error mgr mgr now aId cId ty none
        (some (failedRecord α aId cId ty e cfg t)) e
        (check_failed_budget mgr now aId cId ty (failedRecord α aId cId ty e cfg t)
          hget hx hs (by rw [hcfg]; exact hr))]
      obtain ⟨st, cf⟩ := mgr
      simp only at ht hcfg
      subst ht hcfg
      simp [IdemStore.set, failedRecord]

end IdempotencyManager

namespace IdempotencyManager

theorem repeatFailing_invariant {α : Type} (cfg : IdempotencyConfig)
    (hmax : 1 < cfg.maxRetries) (aId cId ty e : String) :
    ∀ (nows : List Int) (mgr : IdempotencyManager α),
      mgr.config = cfg →
      (mgr.store = [] ∨
        ∃ t, mgr.store = [(generateKey aId cId, failedRecord α aId cId ty e cfg t)]) →
      (∀ p ∈ (repeatFailingExec mgr aId cId ty e nows).2,
        p = ({ success := false, fromCache := false, error := some e }, true)) ∧
      (repeatFailingExec mgr aId cId ty e nows).1.config = cfg ∧
      ((repeatFailingExec mgr aId cId ty e nows).1.store = [] ∨
        ∃ t, (repeatFailingExec mgr aId cId ty e nows).1.store =
          [(generateKey aId cId, failedRecord α aId cId ty e cfg t)]) := by
  intro nows
  induction nows with
  | nil =>
      intro mgr hcfg hinv
      exact ⟨by simp [repeatFailingExec], hcfg, hinv⟩
  | cons now rest ih =>
      intro mgr hcfg hinv
      have hcall := failing_call_step cfg hmax aId cId ty e now mgr hcfg hinv
      have hnext := ih ⟨[(generateKey aId cId, failedRecord α aId cId ty e cfg now)], cfg⟩
        rfl (Or.inr ⟨now, rfl⟩)
      refine ⟨?_, ?_, ?_⟩
      · intro p hp
        simp only [repeatFailingExec, hcall, List.mem_cons] at hp
        rcases hp with hp | hp
        · exact hp
        · exact hnext.1 p hp
      · simp only [repeatFailingExec, hcall]
        exact hnext.2.1
      · simp only [repeatFailingExec, hcall]
        exact hnext.2.2

end IdempotencyManager

open IdempotencyManager in
/-- Claim C10 (implicit): the failed-state retry budget does not accumulate
across `executeWithIdempotency` cycles — `storeAction` replaces the record's
metadata with the caller-supplied metadata, discarding the stored
`retryCount`, and `markFailed` recomputes it as `(metadata.retryCount || 0)
+ 1`; hence with `maxRetries ≥ 2` and callers not threading `retryCount`
through metadata, every repeated failing call for a key proceeds to invoke
the action again (returning the action's own error, never a "Max retries
exceeded" refusal), and the stored record's `retryCount` is 1 after every
call. -/
theorem retry_budget_never_accumulates (α : Type) [DecidableEq α]
    (cfg : IdempotencyConfig) (hmax : 1 < cfg.maxRetries)
    (aId cId ty e : String) (nows : List Int) :
    ((repeatFailingExec (IdempotencyManager.new α cfg) aId cId ty e nows).2.all
      (fun p => p ==
        ({ success := false, fromCache := false, error := some e }, true))) =
      true ∧
    (Option.all
      (fun r => r.status == IdemStatus.failed &&
        r.metadata == some { retryCount := some 1, lastError := some e })
      ((repeatFailingExec (IdempotencyManager.new α cfg) aId cId ty e
          nows).1.store.get (generateKey aId cId))) = true := by
  obtain ⟨hall, hcfg, hstore⟩ :=
    repeatFailing_invariant cfg hmax aId cId ty e nows
      (IdempotencyManager.new α cfg) rfl (Or.inl rfl)
  constructor
  · rw [List.all_eq_true]
    intro p hp
    rw [beq_iff_eq]
    exact hall p hp
  · rcases hstore with h | ⟨t, h⟩
    · rw [h]
      rfl
    · rw [h]
      simp [IdemStore.get, failedRecord]

open IdempotencyManager in
/-- Witness for C10: three consecutive failing calls under the default
configuration (`maxRetries = 3`) each invoke the action and fail with the
action's error, and the stored retry count stays at 1. -/
theorem retry_budget_never_accumulates_witness :
    ((repeatFailingExec (IdempotencyManager.new Nat sampleIdemConfig)
        "a1" "c1" "t" "boom" [0, 1, 2]).2.all
      (fun p => p ==
        ({ success := false, fromCache := false, error := some "boom" },
         true))) = true ∧
    (Option.all
      (fun r => r.status == IdemStatus.failed &&
        r.metadata == some { retryCount := some 1, lastError := some "boom" })
      ((repeatFailingExec (IdempotencyManager.new Nat sampleIdemConfig)
          "a1" "c1" "t" "boom" [0, 1, 2]).1.store.get
        (generateKey "a1" "c1"))) = true :=
  retry_budget_never_accumulates Nat sampleIdemConfig (by decide)
    "a1" "c1" "t" "boom" [0, 1, 2]
